import Mathlib

/-!
Verification development for the devcli command dispatcher (src/main.c).
The C program is shallowly embedded: the parsed cJSON task catalog becomes
an inductive tree, process execution becomes an environment function from
command strings to exit statuses, and every observable action (process
spawn, catalog lookup, logged error) is recorded in an event trace.
Undefined behavior (a null-pointer dereference, an out-of-bounds index)
is modeled as the distinguished outcome `RunErr.crash`.
-/

/-- Parse errors of the dotted-name check in run_commands (main.c lines 260-275):
`format` is the missing-dot message, `dotPos` the dot-position message. -/
inductive ParseErr where
  | format
  | dotPos
  deriving DecidableEq, Repr

/-- The LOG_ERROR messages the embedded code can emit, abbreviated to tags. -/
inductive ErrMsg where
  | parse (e : ParseErr)
  | noCategory
  | noSubcommand
  | shellMissing
  | noCmd
  | cfgMissing
  | popenFail
  | captureFail
  | placeholderMissing
  | execFail
  deriving DecidableEq, Repr

/-- Observable events of a run: `sys` is a call to the C `system` primitive
(`none` models `system(NULL)`, reachable when a valuestring is null),
`popenEv` a call to `popen`, `lookup` a catalog lookup on the parsed tree,
`err` a LOG_ERROR diagnostic. -/
inductive Event where
  | sys (cmd : Option String)
  | popenEv (cmd : String)
  | lookup (key : String)
  | err (m : ErrMsg)
  deriving DecidableEq, Repr

/-- Abnormal outcomes: `crash` models undefined behavior (null dereference or
out-of-bounds access), `hang` a blocking read with no input left, `fuelOut`
exhaustion of the recursion fuel that bounds dependency recursion. -/
inductive RunErr where
  | crash
  | hang
  | fuelOut
  deriving DecidableEq, Repr

/-- The parsed cJSON tree. `other` collapses numbers, booleans and null,
whose values devcli never reads. Object entry order is the file order,
as in the cJSON child list. -/
inductive CJSON where
  | str (s : String)
  | arr (items : List CJSON)
  | obj (entries : List (String × CJSON))
  | other
  deriving Repr

/-- ASCII lowercase of one character, as C tolower does on ASCII input. -/
def lowerChar (c : Char) : Char :=
  if 65 ≤ c.toNat ∧ c.toNat ≤ 90 then Char.ofNat (c.toNat + 32) else c

/-- Case-insensitive string equality, as cJSON_strcasecmp compares keys. -/
def strCaseEq (a b : String) : Bool :=
  a.toList.map lowerChar == b.toList.map lowerChar

/-- cJSON_GetObjectItem: first child of an object whose key matches
case-insensitively; none on a non-object or a missing key. -/
def getObjectItem : CJSON → String → Option CJSON
  | CJSON.obj entries, key =>
      (entries.find? (fun e => strCaseEq e.1 key)).map (fun e => e.2)
  | _, _ => none

/-- The valuestring field of a cJSON node: the payload for strings, null
(here `none`) for every other node kind. -/
def valuestring : CJSON → Option String
  | CJSON.str s => some s
  | _ => none

/-- cJSON_IsObject. -/
def isObject : CJSON → Bool
  | CJSON.obj _ => true
  | _ => false

/-- cJSON_IsString. -/
def isString : CJSON → Bool
  | CJSON.str _ => true
  | _ => false

/-- The named children of a node, in order: object entries, and nothing for
other node kinds (array elements carry no key name and the devcli catalog
is an object of objects). -/
def childPairs : CJSON → List (String × CJSON)
  | CJSON.obj entries => entries
  | _ => []

/-- The literal placeholder token scanned for by main.c. -/
def pathToken : String := "\x7b\x7bpath\x7d\x7d"

/-- Does the character list begin with the pattern list? -/
def beginsWith : List Char → List Char → Bool
  | _, [] => true
  | [], _ :: _ => false
  | c :: cs, p :: ps => c = p && beginsWith cs ps

/-- strstr on character lists: the text before the first (leftmost)
occurrence of `pat` and the text after it, or none when `pat` is absent. -/
def splitFirst : List Char → List Char → Option (List Char × List Char)
  | [], pat => if pat.isEmpty then some ([], []) else none
  | c :: rest, pat =>
      if beginsWith (c :: rest) pat then some ([], (c :: rest).drop pat.length)
      else (splitFirst rest pat).map (fun p => (c :: p.1, p.2))

/-- strstr presence test: does `pat` occur as a substring of `s`? -/
def containsSubstr (s pat : String) : Bool :=
  (splitFirst s.toList pat.toList).isSome

/-- Replace the first (leftmost) occurrence of `pat` in `s` by `rep`,
as the snprintf splice in main.c does; `s` unchanged when `pat` is absent. -/
def substFirst (s pat rep : String) : String :=
  match splitFirst s.toList pat.toList with
  | none => s
  | some (before, after) => String.mk (before ++ rep.toList ++ after)

/-- wrap_for_shell (main.c lines 161-169): under the Powershell identifier
the command is embedded in a powershell -Command invocation (the allocated
buffer of strlen+30 bytes never truncates, since the wrapper adds 23 bytes);
under every other identifier the command is returned unchanged. -/
def wrap_for_shell (shell : String) (command : String) : String :=
  if shell = "Powershell" then "powershell -Command \"" ++ command ++ "\"" else command

/-- Loop of replace_placeholder (main.c lines 133-157). `orig` is the
untouched argument, `cur` the working copy, `vals` the values the user
types at successive prompts. While the token occurs: consume one value;
a value equal to the token aborts and yields the original argument;
otherwise splice the value over the first occurrence and repeat. Returns
the result together with the unconsumed values; `none` models the loop
blocking on input with no value left. -/
def replaceLoop (orig : String) : String → List String → Option (String × List String)
  | cur, [] => if containsSubstr cur pathToken then none else some (cur, [])
  | cur, v :: rest =>
      if containsSubstr cur pathToken then
        if v = pathToken then some (orig, rest)
        else replaceLoop orig (substFirst cur pathToken v) rest
      else some (cur, v :: rest)

/-- replace_placeholder (main.c lines 129-160). -/
def replace_placeholder (input : String) (vals : List String) : Option (String × List String) :=
  replaceLoop input input vals

/-- Truncation at the last slash (main.c lines 229-230): the characters
strictly before the last `/`, or the whole string when no slash occurs,
exactly as strrchr followed by writing a terminator. -/
def dropLastSlashSeg : List Char → List Char
  | [] => []
  | [c] => if c = '/' then [] else [c]
  | c :: c2 :: rest =>
      if ('/' : Char) ∈ (c2 :: rest) then c :: dropLastSlashSeg (c2 :: rest)
      else if c = '/' then [] else c :: c2 :: rest

/-- The two truncations applied to the captured drive-probe line
(main.c lines 229-231): cut at the last slash, then cut at the first
newline (strcspn). -/
def stripDriveLine (l : List Char) : List Char :=
  (dropLastSlashSeg l).takeWhile (fun c => c ≠ '\n')

/-- The trailing-slash removal (main.c line 232) applied to a non-empty
stripped buffer: drop the final character when it is a slash. -/
def trailSlashTrim (stripped : List Char) : List Char :=
  match stripped.getLast? with
  | some ch => if ch = '/' then stripped.dropLast else stripped
  | none => stripped

/-- The outside world seen by the checker and executor: `run` gives the
exit status the C system call reports for a command string (`none` models
system(NULL)); `capture` is the popen interaction on the drive probe
(`none`: popen itself fails, `some none`: no line can be read, `some
(some line)`: the captured first line); `isAdmin` is the privilege test. -/
structure Env where
  run : Option String → Int
  capture : Option (Option String)
  isAdmin : Bool

/-- check_availability (main.c lines 190-258). Returns the C int result
(0 means already usable, 1 means not found or error) with the event trace.
Malloc is assumed to succeed. Reading `path[strlen(path)-1]` on the empty
stripped buffer is an out-of-bounds access, modeled as a crash. -/
def check_availability (env : Env) (shell : String)
    (foundAtPath foundAtDrive addFileToPath : Option String) :
    Except RunErr (Int × List Event) :=
  match foundAtPath, foundAtDrive, addFileToPath with
  | some p, some d, some a =>
    let c1 := wrap_for_shell shell p
    let status := env.run (some c1)
    if status = 0 then Except.ok (0, [Event.sys (some c1)])
    else
      let c2 := wrap_for_shell shell d
      let status1 := env.run (some c2)
      if status = 1 ∧ status1 = 0 then
        if shell ≠ "Linux" then
          let c3 := wrap_for_shell shell a
          Except.ok (0, [Event.sys (some c1), Event.sys (some c2), Event.sys (some c3)])
        else
          match env.capture with
          | none =>
              Except.ok (1, [Event.sys (some c1), Event.sys (some c2), Event.err ErrMsg.popenFail])
          | some none =>
              Except.ok (1, [Event.sys (some c1), Event.sys (some c2), Event.popenEv d,
                             Event.err ErrMsg.captureFail])
          | some (some line) =>
            let stripped := stripDriveLine line.toList
            if stripped.isEmpty then Except.error RunErr.crash
            else
              let path := trailSlashTrim stripped
              if containsSubstr a pathToken then
                let buffer := substFirst a pathToken (String.mk path)
                Except.ok (0, [Event.sys (some c1), Event.sys (some c2), Event.popenEv d,
                               Event.sys (some buffer)])
              else
                Except.ok (1, [Event.sys (some c1), Event.sys (some c2), Event.popenEv d,
                               Event.err ErrMsg.placeholderMissing])
      else
        Except.ok (1, [Event.sys (some c1), Event.sys (some c2)])
  | _, _, _ => Except.ok (1, [Event.err ErrMsg.cfgMissing])

/-- First `.` among positions 0 .. length-2 of the name, matching the scan
loop bound i < len-1 in main.c lines 262-267 (the final character is never
examined). -/
def firstDotNotLast : List Char → Option Nat
  | [] => none
  | [_] => none
  | c :: c2 :: rest =>
      if c = '.' then some 0 else (firstDotNotLast (c2 :: rest)).map (fun i => i + 1)

/-- ParseName (main.c lines 260-277): no dot found gives the format error;
a dot at position 0 (or at or beyond the final index, an unreachable guard
kept from the source) gives the dot-position error; otherwise the name is
split into the category (before the dot) and subcommand (after it). -/
def parseInput (userInput : String) : Except ParseErr (String × String) :=
  let l := userInput.toList
  match firstDotNotLast l with
  | none => Except.error ParseErr.format
  | some i =>
      if i = 0 ∨ l.length - 1 ≤ i then Except.error ParseErr.dotPos
      else Except.ok (String.mk (l.take i), String.mk (l.drop (i + 1)))

/-- DispatchPhase of run_commands (main.c lines 307-390), entered after the
dependency loop with the shell variant object in hand. Fetching `cmd` and
immediately logging `runningCommand->valuestring` (line 308) dereferences a
null pointer when the key is absent: crash. Likewise the install branch logs
the valuestrings of atPath/atDrive/addToPath (line 319) before any check,
so an absent key crashes there. A present but non-string node has a null
valuestring, which printf tolerates, so it is not a crash by itself. -/
def dispatchPhase (env : Env) (shell : String) (input1 input2 : String)
    (shellCommand : CJSON) (ins : List String) :
    Except RunErr (List Event × List String) :=
  match getObjectItem shellCommand "cmd" with
  | none => Except.error RunErr.crash
  | some rc =>
    if (!isString rc) && (shell == "CMD" || shell == "Powershell") && (input1 != "install") then
      Except.ok ([Event.err ErrMsg.noCmd], ins)
    else
      if input1 == "install" then
        if input2 != "all" then
          match getObjectItem shellCommand "atPath", getObjectItem shellCommand "atDrive",
                getObjectItem shellCommand "addToPath" with
          | some fp, some fd, some fa =>
            match check_availability env shell (valuestring fp) (valuestring fd) (valuestring fa) with
            | Except.error e => Except.error e
            | Except.ok (r, ctr) =>
              if r = 0 then Except.ok (ctr, ins)
              else
                if shell == "CMD" || shell == "Powershell" then
                  let key := if env.isAdmin then "choco" else "scoop"
                  match getObjectItem rc key with
                  | some (CJSON.str ac) =>
                      let fc := wrap_for_shell shell ac
                      let st := env.run (some fc)
                      Except.ok (ctr ++ [Event.sys (some fc)] ++
                        (if st ≠ 0 then [Event.err ErrMsg.execFail] else []), ins)
                  | _ => Except.ok (ctr ++ [Event.err ErrMsg.noCmd], ins)
                else
                  let st := env.run (valuestring rc)
                  Except.ok (ctr ++ [Event.sys (valuestring rc)] ++
                    (if st ≠ 0 then [Event.err ErrMsg.execFail] else []), ins)
          | _, _, _ => Except.error RunErr.crash
        else Except.ok ([], ins)
      else
        match valuestring rc with
        | none => Except.error RunErr.crash
        | some cmdStr =>
          if containsSubstr cmdStr pathToken then
            match replace_placeholder cmdStr ins with
            | none => Except.error RunErr.hang
            | some (cw, ins1) =>
                let fc := wrap_for_shell shell cw
                let st := env.run (some fc)
                Except.ok ([Event.sys (some fc)] ++
                  (if st ≠ 0 then [Event.err ErrMsg.execFail] else []), ins1)
          else
            let fc := wrap_for_shell shell cmdStr
            let st := env.run (some fc)
            Except.ok ([Event.sys (some fc)] ++
              (if st ≠ 0 then [Event.err ErrMsg.execFail] else []), ins)

/-- The dependency loop of run_commands (main.c lines 298-306): each string
entry of the dependsOn array, in declared order, is run through `f` (the
recursive re-entry), threading the remaining user-input values; traces are
concatenated. An abnormal outcome of a dependency (crash, hang, fuel)
aborts the process, exactly as in C. -/
def runDeps (f : String → List String → Except RunErr (List Event × List String)) :
    List String → List String → Except RunErr (List Event × List String)
  | [], ins => Except.ok ([], ins)
  | n :: rest, ins =>
    match f n ins with
    | Except.error e => Except.error e
    | Except.ok (t, ins1) =>
      match runDeps f rest ins1 with
      | Except.error e => Except.error e
      | Except.ok (ts, ins2) => Except.ok (t ++ ts, ins2)

/-- run_commands (main.c lines 259-396), with explicit recursion fuel
modeling the unbounded C call stack. The trace records the category and
subcommand catalog lookups, then everything the dependency runs and the
dispatch phase do. A non-object at any of the three levels is skipped
silently, as in the source (the not-an-object diagnostic at line 388 is
dead code nested inside the object branch). -/
def run_commands (env : Env) (shell : String) :
    Nat → CJSON → String → List String → Except RunErr (List Event × List String)
  | 0, _, _, _ => Except.error RunErr.fuelOut
  | Nat.succ fuel, root, userInput, ins =>
    match parseInput userInput with
    | Except.error e => Except.ok ([Event.err (ErrMsg.parse e)], ins)
    | Except.ok (input1, input2) =>
      match getObjectItem root input1 with
      | none => Except.ok ([Event.lookup input1, Event.err ErrMsg.noCategory], ins)
      | some command =>
        if isObject command then
          match getObjectItem command input2 with
          | none => Except.ok ([Event.lookup input1, Event.lookup input2,
                                Event.err ErrMsg.noSubcommand], ins)
          | some fullCommand =>
            if isObject fullCommand then
              match getObjectItem fullCommand shell with
              | none => Except.ok ([Event.lookup input1, Event.lookup input2,
                                    Event.err ErrMsg.shellMissing], ins)
              | some shellCommand =>
                if isObject shellCommand then
                  let depNames :=
                    match getObjectItem shellCommand "dependsOn" with
                    | some (CJSON.arr items) =>
                        items.filterMap (fun it =>
                          match it with
                          | CJSON.str s => some s
                          | _ => none)
                    | _ => []
                  match runDeps (fun n i => run_commands env shell fuel root n i) depNames ins with
                  | Except.error e => Except.error e
                  | Except.ok (depsTr, ins1) =>
                    match dispatchPhase env shell input1 input2 shellCommand ins1 with
                    | Except.error e => Except.error e
                    | Except.ok (dTr, ins2) =>
                        Except.ok ([Event.lookup input1, Event.lookup input2] ++ depsTr ++ dTr, ins2)
                else Except.ok ([Event.lookup input1, Event.lookup input2], ins)
            else Except.ok ([Event.lookup input1, Event.lookup input2], ins)
        else Except.ok ([Event.lookup input1], ins)
termination_by structural fuel => fuel

/-- Inner loop of help (main.c lines 406-421) over the subcommands of one
category: a subcommand whose spec lacks the active shell key aborts the
whole listing (the C return at line 411), signalled by the true flag;
otherwise a line (command name, use text) is printed when the shell entry
is an object holding a string `use`, and traversal continues. -/
def helpSubs (shell cat : String) : List (String × CJSON) → List (String × String) × Bool
  | [] => ([], false)
  | (sub, spec) :: rest =>
    match getObjectItem spec shell with
    | none => ([], true)
    | some so =>
      let line :=
        if isObject so then
          match getObjectItem so "use" with
          | some (CJSON.str u) => [(cat ++ "." ++ sub, u)]
          | _ => []
        else []
      let r := helpSubs shell cat rest
      (line ++ r.1, r.2)

/-- Outer loop of help (main.c lines 403-423) over the categories: lines
printed before an abort remain printed, and an abort stops the remaining
categories. -/
def helpCats (shell : String) : List (String × CJSON) → List (String × String) × Bool
  | [] => ([], false)
  | (cat, cv) :: rest =>
    let r1 := helpSubs shell cat (childPairs cv)
    if r1.2 then (r1.1, true)
    else
      let r2 := helpCats shell rest
      (r1.1 ++ r2.1, r2.2)

/-- help (main.c lines 397-424): the printed (command, use) lines in catalog
traversal order, and whether the listing aborted early. The function calls
no process-spawning primitive, so its embedding has no event trace. -/
def helpRun (shell : String) (root : CJSON) : List (String × String) × Bool :=
  helpCats shell (childPairs root)

/-- The line the listing owes one subcommand entry: present when the entry
holds the active shell key as an object with a string `use` field. -/
def specLine (shell cat : String) (q : String × CJSON) : Option (String × String) :=
  match getObjectItem q.2 shell with
  | some so =>
      if isObject so then
        match getObjectItem so "use" with
        | some (CJSON.str u) => some (cat ++ "." ++ q.1, u)
        | _ => none
      else none
  | none => none

/-- Modelled from the spec (end-to-end scenario 4): one line per
category.subcommand pair that has a `use` field under the active shell,
in catalog traversal order, covering the entire catalog. -/
def helpSpecLines (shell : String) (root : CJSON) : List (String × String) :=
  (childPairs root).flatMap (fun p => (childPairs p.2).filterMap (specLine shell p.1))

/-- Does every subcommand entry of the catalog carry the active shell key? -/
def allShellKeys (shell : String) (root : CJSON) : Bool :=
  (childPairs root).all (fun p =>
    (childPairs p.2).all (fun q => (getObjectItem q.2 shell).isSome))

/-- The malformed dotted names of claim C5: no dot at all, first character a
dot, or the only dot at the final index. -/
def badNameB (l : List Char) : Bool :=
  !(l.contains '.') || (l.head? == some '.') ||
    (l.getLast? == some '.' && !(l.dropLast.contains '.'))

/-- Sequential execution of the declared dependencies: `DepsRun env shell
fuel root names ins insF ts` holds when running the names in declared
order, each exactly once through run_commands at the given fuel and
threading the user-input values from `ins` to `insF`, completes normally
and produces the per-dependency traces `ts`. -/
inductive DepsRun (env : Env) (shell : String) (fuel : Nat) (root : CJSON) :
    List String → List String → List String → List (List Event) → Prop where
  | nil (ins : List String) : DepsRun env shell fuel root [] ins ins []
  | cons {n : String} {rest : List String} {ins ins1 insF : List String}
      {t : List Event} {ts : List (List Event)}
      (h : run_commands env shell fuel root n ins = Except.ok (t, ins1))
      (htail : DepsRun env shell fuel root rest ins1 insF ts) :
      DepsRun env shell fuel root (n :: rest) ins insF (t :: ts)

/-- An environment in which every command reports status 0, no drive-probe
line is ever captured and the process is not elevated. -/
def exEnv0 : Env := { run := fun _ => 0, capture := none, isAdmin := false }

/-- Environment for the C1 counterexample: the path probe reports status 2,
the drive probe status 0. -/
def exEnvC1 : Env :=
  { run := fun cm => if cm = some "atdrive" then 0 else 2, capture := none, isAdmin := false }

/-- Environment for the C1 witness: the path probe reports status 1,
everything else status 0. -/
def exEnvC1W : Env :=
  { run := fun cm => if cm = some "wp" then 1 else 0, capture := none, isAdmin := false }

/-- Environment for C10: path probe status 1, drive probe status 0, and the
captured drive-probe line names a file directly under the filesystem root. -/
def exEnvC10 : Env :=
  { run := fun cm => if cm = some "p10" then 1 else 0, capture := some (some "/git\n"),
    isAdmin := false }

/-- Catalog for C2: the Linux variant of build.cpp lacks the cmd key. -/
def rootC2 : CJSON :=
  CJSON.obj [("build", CJSON.obj [("cpp", CJSON.obj [("Linux",
    CJSON.obj [("use", CJSON.str "compile")])])])]

/-- Catalog for C2, install flavor: install.git lacks the atPath, atDrive
and addToPath keys. -/
def rootC2b : CJSON :=
  CJSON.obj [("install", CJSON.obj [("git", CJSON.obj [("CMD",
    CJSON.obj [("cmd", CJSON.obj [("choco", CJSON.str "choco install git")])])])])]

/-- Catalog for C3: a generic command whose cmd string carries the name
token and no path token. -/
def rootC3 : CJSON :=
  CJSON.obj [("build", CJSON.obj [("x", CJSON.obj [("Linux",
    CJSON.obj [("cmd", CJSON.str "echo \x7b\x7bname\x7d\x7d")])])])]

/-- Catalog for the C4 witness: build.all declares two dependencies. -/
def rootC4 : CJSON :=
  CJSON.obj [("build", CJSON.obj [
    ("a", CJSON.obj [("Linux", CJSON.obj [("cmd", CJSON.str "echo a")])]),
    ("b", CJSON.obj [("Linux", CJSON.obj [("cmd", CJSON.str "echo b")])]),
    ("all", CJSON.obj [("Linux", CJSON.obj [
      ("dependsOn", CJSON.arr [CJSON.str "build.a", CJSON.str "build.b"]),
      ("cmd", CJSON.str "echo all")])])])]

/-- Catalog for the C6 witness: git.clone exists but has no Linux entry. -/
def rootC6 : CJSON :=
  CJSON.obj [("git", CJSON.obj [("clone", CJSON.obj [("CMD",
    CJSON.obj [("cmd", CJSON.str "git clone")])])])]

/-- Catalog for the C9 counterexample: the first subcommand lacks the Linux
key, a later subcommand has a use line under Linux. -/
def rootC9 : CJSON :=
  CJSON.obj [
    ("a", CJSON.obj [("x", CJSON.obj [])]),
    ("b", CJSON.obj [("y", CJSON.obj [("Linux",
      CJSON.obj [("use", CJSON.str "desc")])])])]

/-- Catalog for the C9 witness: every subcommand carries the Linux key;
one has a use text, one does not. -/
def rootC9W : CJSON :=
  CJSON.obj [
    ("build", CJSON.obj [
      ("cpp", CJSON.obj [("Linux", CJSON.obj [("use", CJSON.str "compile cpp"),
        ("cmd", CJSON.str "gcc")])]),
      ("run", CJSON.obj [("Linux", CJSON.obj [("cmd", CJSON.str "./out")])])]),
    ("git", CJSON.obj [
      ("st", CJSON.obj [("Linux", CJSON.obj [("use", CJSON.str "status"),
        ("cmd", CJSON.str "git status")])])])]

lemma beginsWith_self_append (pat rest : List Char) : beginsWith (pat ++ rest) pat = true := by
  induction pat with
  | nil => simp [beginsWith]
  | cons p ps ih => simp [beginsWith, ih]

lemma splitFirst_isSome_of_lead (pat rest : List Char) (h : pat ≠ []) :
    (splitFirst (pat ++ rest) pat).isSome = true := by
  match pat, h with
  | p :: ps, _ =>
    show (splitFirst (p :: (ps ++ rest)) (p :: ps)).isSome = true
    have hb : beginsWith (p :: (ps ++ rest)) (p :: ps) = true :=
      beginsWith_self_append (p :: ps) rest
    simp [splitFirst, hb]

/-- Claim C8 (confirmed): wrap_for_shell returns its input unchanged under
the CMD and Linux identifiers, and under Powershell returns the command
embedded inside powershell -Command quotes, a string that contains the
literal substring powershell -Command followed by a double quote. -/
theorem c8_wrap_behavior (c : String) :
    wrap_for_shell "CMD" c = c ∧ wrap_for_shell "Linux" c = c ∧
    wrap_for_shell "Powershell" c = "powershell -Command \"" ++ c ++ "\"" ∧
    containsSubstr (wrap_for_shell "Powershell" c) "powershell -Command \"" = true := by
  refine ⟨rfl, rfl, rfl, ?_⟩
  show (splitFirst (("powershell -Command \"" ++ c ++ "\"").toList)
    ("powershell -Command \"".toList)).isSome = true
  have hdata : ("powershell -Command \"" ++ c ++ "\"").toList =
      "powershell -Command \"".toList ++ (c.toList ++ "\"".toList) := by
    simp [String.toList]
  rw [hdata]
  exact splitFirst_isSome_of_lead _ _ (by decide)

/-- Claim C7 (confirmed): whenever the first value the user enters at a
prompt is textually the path token itself, replace_placeholder yields the
original input string unchanged; when the input holds no token, no prompt
occurs and the returned string is again the input itself. -/
theorem c7_cancel_returns_original (input : String) (vals : List String) :
    (replace_placeholder input (pathToken :: vals)).map Prod.fst = some input := by
  cases h : containsSubstr input pathToken <;>
    simp [replace_placeholder, replaceLoop, h]

/-- Claim C1, counterexample: the path probe exits with the nonzero status 2
and the drive probe with status 0, yet check_availability returns 1 (install
signalled) and never runs the add-to-path command — the source compares the
first status against 1, not against nonzero. -/
theorem c1_nonzero_status_counterexample :
    check_availability exEnvC1 "CMD" (some "atpath") (some "atdrive") (some "addpath") =
      Except.ok (1, [Event.sys (some "atpath"), Event.sys (some "atdrive")]) := by
  rfl

/-- Claim C2 (code_bug): a shell variant lacking the cmd key makes
run_commands dereference a null pointer at the log line before the missing
key is detected, and an install entry lacking the probe keys crashes at the
log line before check_availability can reject it — a crash, not the clean
configuration error the spec promises. -/
theorem c2_missing_cmd_crashes :
    run_commands exEnv0 "Linux" 1 rootC2 "build.cpp" [] = Except.error RunErr.crash ∧
    run_commands exEnv0 "CMD" 1 rootC2b "install.git" [] = Except.error RunErr.crash := by
  exact ⟨rfl, rfl⟩

/-- Claim C3, counterexample: a generic command whose cmd string carries the
name token (and no path token) is executed with the token left in place and
no user value consumed — the expander is not triggered, the source scans
only for the path token. -/
theorem c3_name_token_counterexample :
    run_commands exEnv0 "Linux" 1 rootC3 "build.x" ["typed"] =
      Except.ok ([Event.lookup "build", Event.lookup "x",
        Event.sys (some "echo \x7b\x7bname\x7d\x7d")], ["typed"]) ∧
    containsSubstr "echo \x7b\x7bname\x7d\x7d" "\x7b\x7bname\x7d\x7d" = true := by
  exact ⟨rfl, rfl⟩

/-- Claim C10 (code_bug): a captured drive-probe line that is a bare newline
or names a file directly under the filesystem root strips to the empty
string, so the trailing-slash test indexes the buffer at strlen-1 = -1,
out of bounds; check_availability run on such a capture reaches that
undefined access. -/
theorem c10_empty_path_oob :
    stripDriveLine ("/git\n".toList) = [] ∧ stripDriveLine ("\n".toList) = [] ∧
    check_availability exEnvC10 "Linux" (some "p10") (some "d10")
      (some "add \x7b\x7bpath\x7d\x7d") = Except.error RunErr.crash := by
  exact ⟨rfl, rfl, rfl⟩

/-- Claim C9, counterexample: the catalog pair b.y has a use line under the
active shell, yet the listing prints nothing, because the earlier pair a.x
lacks the shell key and the help loop returns from the whole listing there. -/
theorem c9_abort_counterexample :
    helpRun "Linux" rootC9 = ([], true) ∧
    helpSpecLines "Linux" rootC9 = [("b.y", "desc")] := by
  exact ⟨rfl, rfl⟩

lemma firstDotNotLast_eq_none (l : List Char) (h : ('.' : Char) ∉ l.dropLast) :
    firstDotNotLast l = none := by
  induction l with
  | nil => rfl
  | cons a t ih =>
    cases t with
    | nil => rfl
    | cons b rest =>
      have hd : (a :: b :: rest).dropLast = a :: (b :: rest).dropLast := rfl
      rw [hd] at h
      simp only [List.mem_cons, not_or] at h
      obtain ⟨h1, h2⟩ := h
      have ha : a ≠ '.' := fun he => h1 he.symm
      simp [firstDotNotLast, ha, ih h2]

/-- Claim C5 (confirmed): a name with no dot, or whose first dot is at
position 0, or whose only dot is at the final index, makes run_commands
stop with a parse-error diagnostic as its entire trace — so no catalog
lookup event and no process-spawn event occurs. -/
theorem c5_bad_name_parse_error (env : Env) (shell : String) (fuel : Nat) (root : CJSON)
    (userInput : String) (ins : List String)
    (h : badNameB userInput.toList = true) :
    ∃ pe, run_commands env shell (fuel + 1) root userInput ins =
      Except.ok ([Event.err (ErrMsg.parse pe)], ins) := by
  have hp : ∃ pe, parseInput userInput = Except.error pe := by
    simp only [badNameB, Bool.or_eq_true, Bool.and_eq_true] at h
    rcases h with (h | h) | ⟨_, h2⟩
    · have hnd : ('.' : Char) ∉ userInput.toList := by simpa using h
      have hnd2 : ('.' : Char) ∉ userInput.data.dropLast :=
        fun hm => hnd (List.dropLast_subset _ hm)
      have hn : firstDotNotLast userInput.data = none := firstDotNotLast_eq_none _ hnd2
      exact ⟨ParseErr.format, by simp [parseInput, hn]⟩
    · rw [beq_iff_eq] at h
      rcases heq : userInput.toList with _ | ⟨a, t⟩
      · rw [heq] at h
        simp at h
      · rw [heq] at h
        simp at h
        subst h
        have heq' : userInput.data = '.' :: t := heq
        rcases t with _ | ⟨b, rest⟩
        · exact ⟨ParseErr.format, by simp [parseInput, heq', firstDotNotLast]⟩
        · exact ⟨ParseErr.dotPos, by simp [parseInput, heq', firstDotNotLast]⟩
    · have hnd2 : ('.' : Char) ∉ userInput.data.dropLast := by simpa using h2
      have hn : firstDotNotLast userInput.data = none := firstDotNotLast_eq_none _ hnd2
      exact ⟨ParseErr.format, by simp [parseInput, hn]⟩
  rcases hp with ⟨pe, hpe⟩
  exact ⟨pe, by simp [run_commands, hpe]⟩

/-- Witness for C5 at the concrete name nodot. -/
theorem c5_bad_name_parse_error_witness :
    badNameB ("nodot".toList) = true ∧
    ∃ pe, run_commands exEnv0 "Linux" (0 + 1) (CJSON.obj []) "nodot" [] =
      Except.ok ([Event.err (ErrMsg.parse pe)], []) :=
  ⟨by decide, c5_bad_name_parse_error exEnv0 "Linux" 0 (CJSON.obj []) "nodot" [] (by decide)⟩

/-- Claim C6 (confirmed): a catalog entry present for the category and
subcommand but lacking the key of the active shell makes run_commands stop
with the shell-missing diagnostic; its whole trace is the two catalog
lookups and that diagnostic, so no process is spawned and no crash occurs. -/
theorem c6_shell_variant_missing (env : Env) (shell : String) (fuel : Nat) (root : CJSON)
    (userInput : String) (ins : List String) (c s : String)
    (catE specE : List (String × CJSON))
    (hp : parseInput userInput = Except.ok (c, s))
    (hc : getObjectItem root c = some (CJSON.obj catE))
    (hs : getObjectItem (CJSON.obj catE) s = some (CJSON.obj specE))
    (hv : getObjectItem (CJSON.obj specE) shell = none) :
    run_commands env shell (fuel + 1) root userInput ins =
      Except.ok ([Event.lookup c, Event.lookup s, Event.err ErrMsg.shellMissing], ins) := by
  simp [run_commands, hp, hc, hs, hv, isObject]

/-- Witness for C6 at a concrete catalog whose git.clone entry has no Linux
variant. -/
theorem c6_shell_variant_missing_witness :
    run_commands exEnv0 "Linux" (0 + 1) rootC6 "git.clone" [] =
      Except.ok ([Event.lookup "git", Event.lookup "clone", Event.err ErrMsg.shellMissing], []) :=
  c6_shell_variant_missing exEnv0 "Linux" 0 rootC6 "git.clone" [] "git" "clone"
    [("clone", CJSON.obj [("CMD", CJSON.obj [("cmd", CJSON.str "git clone")])])]
    [("CMD", CJSON.obj [("cmd", CJSON.str "git clone")])]
    rfl rfl rfl rfl

/-- Claim C1 as amended (corrected): when the wrapped path probe reports
status exactly 1 and the wrapped drive probe status 0, the result is
AlreadyUsable (0) and the last action of the call is running an
add-to-path command — on non-Linux shells the wrapped addToPath string,
on Linux the addToPath string with the stripped captured directory
substituted for its path token, provided the drive probe line is captured,
strips to a non-empty directory and addToPath holds the token. -/
theorem c1_status_one_alreadyusable (env : Env) (shell p d a : String)
    (h1 : env.run (some (wrap_for_shell shell p)) = 1)
    (h2 : env.run (some (wrap_for_shell shell d)) = 0)
    (hlin : shell = "Linux" → ∃ line, env.capture = some (some line) ∧
      stripDriveLine line.toList ≠ [] ∧ containsSubstr a pathToken = true) :
    ∃ tr cadd, check_availability env shell (some p) (some d) (some a) =
      Except.ok (0, tr) ∧ tr.getLast? = some (Event.sys (some cadd)) := by
  by_cases hs : shell = "Linux"
  · obtain ⟨line, hc, hne, htok⟩ := hlin hs
    subst hs
    have hemp : (stripDriveLine line.toList).isEmpty = false := by
      simpa [List.isEmpty_iff] using hne
    have hne2 : stripDriveLine line.data ≠ [] := hne
    have hcall : check_availability env "Linux" (some p) (some d) (some a) =
        Except.ok (0, [Event.sys (some (wrap_for_shell "Linux" p)),
          Event.sys (some (wrap_for_shell "Linux" d)), Event.popenEv d,
          Event.sys (some (substFirst a pathToken
            (String.mk (trailSlashTrim (stripDriveLine line.toList)))))]) := by
      simp only [check_availability, h1, h2, hc]
      norm_num
      simp [hemp, hne2, htok]
    exact ⟨_, _, hcall, rfl⟩
  · have hcall : check_availability env shell (some p) (some d) (some a) =
        Except.ok (0, [Event.sys (some (wrap_for_shell shell p)),
          Event.sys (some (wrap_for_shell shell d)),
          Event.sys (some (wrap_for_shell shell a))]) := by
      simp only [check_availability, h1, h2]
      norm_num
      simp [hs]
    exact ⟨_, _, hcall, rfl⟩

/-- Witness for C1 on the CMD shell with path-probe status 1 and drive-probe
status 0. -/
theorem c1_status_one_alreadyusable_witness :
    ∃ tr cadd, check_availability exEnvC1W "CMD" (some "wp") (some "wd") (some "wa") =
      Except.ok (0, tr) ∧ tr.getLast? = some (Event.sys (some cadd)) :=
  c1_status_one_alreadyusable exEnvC1W "CMD" "wp" "wd" "wa" (by decide) (by decide)
    (fun h => absurd h (by decide))

/-- Claim C3 as amended (corrected): only the path token triggers the
placeholder expander; for every generic-branch command whose cmd string
holds the path token the dispatch runs replace_placeholder on the string
first and then wraps and executes its output (a name token alone leaves
the command executed literally, as the counterexample shows). -/
theorem c3_path_token_expansion (env : Env) (shell input1 input2 : String)
    (shellCommand : CJSON) (ins : List String) (cmdStr : String)
    (hc : getObjectItem shellCommand "cmd" = some (CJSON.str cmdStr))
    (hi : input1 ≠ "install")
    (ht : containsSubstr cmdStr pathToken = true) :
    dispatchPhase env shell input1 input2 shellCommand ins =
      match replace_placeholder cmdStr ins with
      | none => Except.error RunErr.hang
      | some (cw, ins1) =>
          Except.ok ([Event.sys (some (wrap_for_shell shell cw))] ++
            (if env.run (some (wrap_for_shell shell cw)) ≠ 0 then [Event.err ErrMsg.execFail]
             else []), ins1) := by
  have hi2 : (input1 == "install") = false := by simpa using hi
  simp only [dispatchPhase, hc, isString, valuestring, hi2, ht]
  simp

/-- Witness for C3 at a concrete command string holding the path token. -/
theorem c3_path_token_expansion_witness :
    dispatchPhase exEnv0 "Linux" "run" "x"
      (CJSON.obj [("cmd", CJSON.str "echo \x7b\x7bpath\x7d\x7d")]) ["val"] =
      Except.ok ([Event.sys (some "echo val")], []) :=
  (c3_path_token_expansion exEnv0 "Linux" "run" "x"
    (CJSON.obj [("cmd", CJSON.str "echo \x7b\x7bpath\x7d\x7d")]) ["val"]
    "echo \x7b\x7bpath\x7d\x7d" rfl (by decide) rfl).trans rfl

lemma filterMap_str_names (names : List String) :
    (names.map CJSON.str).filterMap (fun it =>
      match it with
      | CJSON.str s => some s
      | _ => none) = names := by
  induction names with
  | nil => rfl
  | cons a t ih => simp [List.filterMap_cons, ih]

lemma depsRun_runDeps (env : Env) (shell : String) (fuel : Nat) (root : CJSON)
    {names ins insF : List String} {ts : List (List Event)}
    (h : DepsRun env shell fuel root names ins insF ts) :
    runDeps (fun n i => run_commands env shell fuel root n i) names ins =
      Except.ok (ts.flatten, insF) := by
  induction h with
  | nil ins => simp [runDeps]
  | cons h1 htail ih => simp [runDeps, h1, ih]

/-- Claim C4 (confirmed): when the shell variant declares a dependsOn list
of dotted names and each of them, run in declared order with the threaded
user-input values, completes normally (possibly with logged errors or
nonzero exit statuses inside its trace), the parent run consists of its
two catalog lookups, then every dependency trace in declared order, once
each, and then the parent dispatch phase, which is entered regardless of
what the dependency traces contain. -/
theorem c4_dependency_order (env : Env) (shell : String) (fuel : Nat) (root : CJSON)
    (userInput : String) (ins insF : List String) (c s : String)
    (catE specE shellE : List (String × CJSON)) (depNames : List String)
    (ts : List (List Event))
    (hp : parseInput userInput = Except.ok (c, s))
    (hc : getObjectItem root c = some (CJSON.obj catE))
    (hs : getObjectItem (CJSON.obj catE) s = some (CJSON.obj specE))
    (hv : getObjectItem (CJSON.obj specE) shell = some (CJSON.obj shellE))
    (hd : getObjectItem (CJSON.obj shellE) "dependsOn" =
      some (CJSON.arr (depNames.map CJSON.str)))
    (hrun : DepsRun env shell fuel root depNames ins insF ts) :
    run_commands env shell (fuel + 1) root userInput ins =
      match dispatchPhase env shell c s (CJSON.obj shellE) insF with
      | Except.error e => Except.error e
      | Except.ok (dTr, ins2) =>
          Except.ok ([Event.lookup c, Event.lookup s] ++ ts.flatten ++ dTr, ins2) := by
  simp only [run_commands, hp, hc, hs, hv, hd, isObject, filterMap_str_names,
    depsRun_runDeps env shell fuel root hrun]
  simp only [if_true]

/-- Witness for C4: build.all declares the dependencies build.a and build.b;
both run first, in order, then the parent command itself. -/
theorem c4_dependency_order_witness :
    run_commands exEnv0 "Linux" (1 + 1) rootC4 "build.all" [] =
      match dispatchPhase exEnv0 "Linux" "build" "all"
        (CJSON.obj [("dependsOn", CJSON.arr [CJSON.str "build.a", CJSON.str "build.b"]),
          ("cmd", CJSON.str "echo all")]) [] with
      | Except.error e => Except.error e
      | Except.ok (dTr, ins2) =>
          Except.ok ([Event.lookup "build", Event.lookup "all"] ++
            ([[Event.lookup "build", Event.lookup "a", Event.sys (some "echo a")],
              [Event.lookup "build", Event.lookup "b", Event.sys (some "echo b")]] : List (List Event)).flatten ++ dTr, ins2) :=
  c4_dependency_order exEnv0 "Linux" 1 rootC4 "build.all" [] [] "build" "all"
    [("a", CJSON.obj [("Linux", CJSON.obj [("cmd", CJSON.str "echo a")])]),
     ("b", CJSON.obj [("Linux", CJSON.obj [("cmd", CJSON.str "echo b")])]),
     ("all", CJSON.obj [("Linux", CJSON.obj [("dependsOn",
        CJSON.arr [CJSON.str "build.a", CJSON.str "build.b"]),
        ("cmd", CJSON.str "echo all")])])]
    [("Linux", CJSON.obj [("dependsOn", CJSON.arr [CJSON.str "build.a", CJSON.str "build.b"]),
      ("cmd", CJSON.str "echo all")])]
    [("dependsOn", CJSON.arr [CJSON.str "build.a", CJSON.str "build.b"]),
      ("cmd", CJSON.str "echo all")]
    ["build.a", "build.b"]
    [[Event.lookup "build", Event.lookup "a", Event.sys (some "echo a")],
     [Event.lookup "build", Event.lookup "b", Event.sys (some "echo b")]]
    rfl rfl rfl rfl rfl
    (DepsRun.cons rfl (DepsRun.cons rfl (DepsRun.nil [])))

lemma helpSubs_no_abort (shell cat : String) (subs : List (String × CJSON))
    (h : ∀ q ∈ subs, (getObjectItem q.2 shell).isSome = true) :
    helpSubs shell cat subs = (subs.filterMap (specLine shell cat), false) := by
  induction subs with
  | nil => rfl
  | cons q rest ih =>
    obtain ⟨sub, spec⟩ := q
    obtain ⟨so, hso⟩ := Option.isSome_iff_exists.mp (h (sub, spec) (by simp))
    have ih2 := ih (fun r hr => h r (by simp [hr]))
    cases hobj : isObject so
    · simp [helpSubs, hso, ih2, List.filterMap_cons, specLine, hobj]
    · rcases huse : getObjectItem so "use" with _ | u
      · simp [helpSubs, hso, ih2, List.filterMap_cons, specLine, hobj, huse]
      · cases u <;> simp [helpSubs, hso, ih2, List.filterMap_cons, specLine, hobj, huse]

lemma helpCats_no_abort (shell : String) (cats : List (String × CJSON))
    (h : ∀ p ∈ cats, ∀ q ∈ childPairs p.2, (getObjectItem q.2 shell).isSome = true) :
    helpCats shell cats =
      (cats.flatMap (fun p => (childPairs p.2).filterMap (specLine shell p.1)), false) := by
  induction cats with
  | nil => rfl
  | cons p rest ih =>
    obtain ⟨cat, cv⟩ := p
    have hsubs := helpSubs_no_abort shell cat (childPairs cv)
      (fun q hq => h (cat, cv) (by simp) q hq)
    have ih2 := ih (fun r hr q hq => h r (by simp [hr]) q hq)
    simp [helpCats, hsubs, ih2]

/-- Claim C9 as amended (corrected): provided every subcommand entry of the
catalog carries the active shell key, the help listing prints exactly one
line per category.subcommand pair that has a string use field under that
shell, in catalog traversal order, covering the entire catalog, without
aborting; the help routine invokes no process-spawning primitive at all.
(Without that proviso the listing aborts at the first entry lacking the
shell key, as the counterexample shows.) -/
theorem c9_all_shell_keys_listing (shell : String) (root : CJSON)
    (h : allShellKeys shell root = true) :
    helpRun shell root = (helpSpecLines shell root, false) := by
  have h2 : ∀ p ∈ childPairs root, ∀ q ∈ childPairs p.2,
      (getObjectItem q.2 shell).isSome = true := by
    simpa [allShellKeys, List.all_eq_true] using h
  simpa [helpRun, helpSpecLines] using helpCats_no_abort shell (childPairs root) h2

/-- Witness for C9 at a catalog where every subcommand has a Linux entry. -/
theorem c9_all_shell_keys_listing_witness :
    allShellKeys "Linux" rootC9W = true ∧
    helpRun "Linux" rootC9W = (helpSpecLines "Linux" rootC9W, false) :=
  ⟨by decide, c9_all_shell_keys_listing "Linux" rootC9W (by decide)⟩
